import Mathlib

/-!
Verification of the `pared` type-erased shared-ownership pointer runtime.

The repository erases `Arc<T>` / `Rc<T>` behind a fixed-size handle
(`TypeErasedArc` / `TypeErasedRc` / the older root-module `TypeErasedArc`)
holding a type-erased pointer plus a reference to a static per-type table of
function pointers (`RcVTable` / `TypeErasedLifecycle`).  Every operation on a
handle dispatches through the table; the table entries are thin wrappers over
the standard library's reference-counting primitive, which the specification
treats as an external collaborator assumed correct.

We embed the state of one program run as a heap of control blocks.  A control
block records the strong count, the number of live weak handles, how many
times the payload's destructor has run, and the payload cells themselves
(modelled as a list of machine words).  The standard-library primitive's
operations (increment/decrement strong, downgrade, upgrade, the count reads)
are embedded with their documented semantics; the repository's vtable entries
and handle methods are translated line by line on top of them.
-/

/-- Kind tag recording which interpretation of an erased pointer is valid:
it was produced by `Arc::into_raw` (strong) or `Weak::into_raw` (weak). -/
inductive PtrKind where
  | strong
  | weak
deriving DecidableEq, Repr

/-- Modelled from the spec: the Erased Pointer primitive (`src/erased_ptr.rs`
is not included in the sources).  A fixed-size, type-erased address: here the
identity of the control block it addresses plus the interpretation tag
established at its creation site. -/
structure TypeErasedPtr where
  block : Nat
  kind : PtrKind
deriving DecidableEq, Repr

/-- One reference-counted allocation: the control block counters together
with the payload storage.  `strong` is the strong reference count, `weaks`
the number of live weak handles (the standard library's internal weak
counter minus its implicit strong-side entry), `dropped` how many times the
payload's destructor has run, and `payload` the payload cells. -/
structure ControlBlock where
  strong : Nat
  weaks : Nat
  dropped : Nat
  payload : List Nat
deriving DecidableEq, Repr

instance : Inhabited ControlBlock := ⟨⟨0, 0, 0, []⟩⟩

/-- The program state: every block id resolves to a control block. -/
def Heap : Type := Nat → ControlBlock

/-- Update the control block addressed by `b`. -/
def hmod (h : Heap) (b : Nat) (f : ControlBlock → ControlBlock) : Heap :=
  fun b' => if b' = b then f (h b) else h b'

/-- The shared vtable shape (`src/vtable.rs`, used by both the `sync` and the
`prc` module): one function pointer per lifecycle operation, five for the
strong interpretation and five mirrored ones for the weak interpretation.
Each entry is embedded as a state transformer on the heap.  `typeId`
represents the identity (static address) of the per-concrete-type table.
The `as_ptr` entry of the source returns the payload address and is used by
no operation under verification, so it is not carried here. -/
structure RcVTable where
  typeId : Nat
  clone : Heap → TypeErasedPtr → Heap
  drop : Heap → TypeErasedPtr → Heap
  downgrade : Heap → TypeErasedPtr → TypeErasedPtr × Heap
  strong_count : Heap → TypeErasedPtr → Nat × Heap
  weak_count : Heap → TypeErasedPtr → Nat × Heap
  clone_weak : Heap → TypeErasedPtr → Heap
  drop_weak : Heap → TypeErasedPtr → Heap
  upgrade_weak : Heap → TypeErasedPtr → Option TypeErasedPtr × Heap
  strong_count_weak : Heap → TypeErasedPtr → Nat × Heap
  weak_count_weak : Heap → TypeErasedPtr → Nat × Heap

namespace Sync

/-- `ArcErased::clone` (src/sync/erased_arc.rs): `Arc::increment_strong_count`
on the erased pointer — the strong count rises by one, nothing else moves. -/
def ArcErased.clone (h : Heap) (p : TypeErasedPtr) : Heap :=
  hmod h p.block fun cb => { cb with strong := cb.strong + 1 }

/-- `ArcErased::drop` (src/sync/erased_arc.rs): rebuild the `Arc` with
`Arc::from_raw` and drop it — the strong count falls by one and, when it
reaches zero, the payload's destructor runs. -/
def ArcErased.drop (h : Heap) (p : TypeErasedPtr) : Heap :=
  hmod h p.block fun cb =>
    if cb.strong = 1 then { cb with strong := 0, dropped := cb.dropped + 1 }
    else { cb with strong := cb.strong - 1 }

/-- `ArcErased::downgrade` (src/sync/erased_arc.rs): `Arc::downgrade` then
`Weak::into_raw` — one more live weak handle, and the returned erased pointer
addresses the same control block under the weak interpretation. -/
def ArcErased.downgrade (h : Heap) (p : TypeErasedPtr) : TypeErasedPtr × Heap :=
  (⟨p.block, PtrKind.weak⟩, hmod h p.block fun cb => { cb with weaks := cb.weaks + 1 })

/-- `ArcErased::strong_count` (src/sync/erased_arc.rs): `Arc::strong_count`,
a pure read of the strong counter. -/
def ArcErased.strong_count (h : Heap) (p : TypeErasedPtr) : Nat × Heap :=
  ((h p.block).strong, h)

/-- `ArcErased::weak_count` (src/sync/erased_arc.rs): `Arc::weak_count`, a
pure read returning the number of live weak handles (the internal counter
minus the implicit entry). -/
def ArcErased.weak_count (h : Heap) (p : TypeErasedPtr) : Nat × Heap :=
  ((h p.block).weaks, h)

/-- `ArcErased::clone_weak` (src/sync/erased_arc.rs): clone the `Weak` —
one more live weak handle. -/
def ArcErased.clone_weak (h : Heap) (p : TypeErasedPtr) : Heap :=
  hmod h p.block fun cb => { cb with weaks := cb.weaks + 1 }

/-- `ArcErased::drop_weak` (src/sync/erased_arc.rs): rebuild the `Weak` and
drop it — one fewer live weak handle. -/
def ArcErased.drop_weak (h : Heap) (p : TypeErasedPtr) : Heap :=
  hmod h p.block fun cb => { cb with weaks := cb.weaks - 1 }

/-- `ArcErased::upgrade_weak` (src/sync/erased_arc.rs): `Weak::upgrade` —
if the strong count is nonzero it is incremented and a strong-interpretation
pointer to the same control block is returned; otherwise nothing is returned
and the state is untouched. -/
def ArcErased.upgrade_weak (h : Heap) (p : TypeErasedPtr) :
    Option TypeErasedPtr × Heap :=
  if (h p.block).strong = 0 then (none, h)
  else (some ⟨p.block, PtrKind.strong⟩,
    hmod h p.block fun cb => { cb with strong := cb.strong + 1 })

/-- `ArcErased::strong_count_weak` (src/sync/erased_arc.rs):
`Weak::strong_count`, a pure read of the strong counter. -/
def ArcErased.strong_count_weak (h : Heap) (p : TypeErasedPtr) : Nat × Heap :=
  ((h p.block).strong, h)

/-- `ArcErased::weak_count_weak` (src/sync/erased_arc.rs):
`Weak::weak_count`, a pure read that returns 0 by convention once the strong
count has reached zero, and the number of live weak handles otherwise. -/
def ArcErased.weak_count_weak (h : Heap) (p : TypeErasedPtr) : Nat × Heap :=
  (if (h p.block).strong = 0 then 0 else (h p.block).weaks, h)

/-- `ArcErased::<T>::VTABLE` (src/sync/erased_arc.rs): the one static table
for the concrete payload type identified by `tid`. -/
def ArcErased.VTABLE (tid : Nat) : RcVTable :=
  { typeId := tid
    clone := ArcErased.clone
    drop := ArcErased.drop
    downgrade := ArcErased.downgrade
    strong_count := ArcErased.strong_count
    weak_count := ArcErased.weak_count
    clone_weak := ArcErased.clone_weak
    drop_weak := ArcErased.drop_weak
    upgrade_weak := ArcErased.upgrade_weak
    strong_count_weak := ArcErased.strong_count_weak
    weak_count_weak := ArcErased.weak_count_weak }

/-- `TypeErasedArc` (src/sync/erased_arc.rs): erased pointer plus static
vtable reference. -/
structure TypeErasedArc where
  ptr : TypeErasedPtr
  vtable : RcVTable

/-- `TypeErasedWeak` (src/sync/erased_arc.rs). -/
structure TypeErasedWeak where
  ptr : TypeErasedPtr
  vtable : RcVTable

/-- `TypeErasedArc::new` (src/sync/erased_arc.rs): `Arc::into_raw` erases
the pointer (the counts are untouched) and the matching static vtable is
recorded; `b` is the block the consumed `Arc<T>` addressed, `tid` the
identity of `T`'s table. -/
def TypeErasedArc.new (b : Nat) (tid : Nat) : TypeErasedArc :=
  ⟨⟨b, PtrKind.strong⟩, ArcErased.VTABLE tid⟩

/-- `impl Clone for TypeErasedArc` (src/sync/erased_arc.rs): dispatch
`vtable.clone` on the stored pointer, then `Self { ..*self }`. -/
def TypeErasedArc.cloneH (a : TypeErasedArc) (h : Heap) : TypeErasedArc × Heap :=
  (⟨a.ptr, a.vtable⟩, a.vtable.clone h a.ptr)

/-- `impl Drop for TypeErasedArc` (src/sync/erased_arc.rs): dispatch
`vtable.drop` on the stored pointer. -/
def TypeErasedArc.dropH (a : TypeErasedArc) (h : Heap) : Heap :=
  a.vtable.drop h a.ptr

/-- `TypeErasedArc::downgrade` (src/sync/erased_arc.rs): dispatch
`vtable.downgrade`; the weak handle carries the returned pointer and the
same vtable. -/
def TypeErasedArc.downgradeH (a : TypeErasedArc) (h : Heap) :
    TypeErasedWeak × Heap :=
  let r := a.vtable.downgrade h a.ptr
  (⟨r.1, a.vtable⟩, r.2)

/-- `TypeErasedArc::strong_count` (src/sync/erased_arc.rs). -/
def TypeErasedArc.strongCount (a : TypeErasedArc) (h : Heap) : Nat × Heap :=
  a.vtable.strong_count h a.ptr

/-- `TypeErasedArc::weak_count` (src/sync/erased_arc.rs). -/
def TypeErasedArc.weakCount (a : TypeErasedArc) (h : Heap) : Nat × Heap :=
  a.vtable.weak_count h a.ptr

/-- `TypeErasedWeak::upgrade` (src/sync/erased_arc.rs): dispatch
`vtable.upgrade_weak`; on `Some` the strong handle carries the returned
pointer and the same vtable, the `?` operator propagates `None`. -/
def TypeErasedWeak.upgradeH (w : TypeErasedWeak) (h : Heap) :
    Option TypeErasedArc × Heap :=
  match w.vtable.upgrade_weak h w.ptr with
  | (some p, h') => (some ⟨p, w.vtable⟩, h')
  | (none, h') => (none, h')

/-- `impl Clone for TypeErasedWeak` (src/sync/erased_arc.rs). -/
def TypeErasedWeak.cloneH (w : TypeErasedWeak) (h : Heap) :
    TypeErasedWeak × Heap :=
  (⟨w.ptr, w.vtable⟩, w.vtable.clone_weak h w.ptr)

/-- `impl Drop for TypeErasedWeak` (src/sync/erased_arc.rs). -/
def TypeErasedWeak.dropH (w : TypeErasedWeak) (h : Heap) : Heap :=
  w.vtable.drop_weak h w.ptr

/-- `TypeErasedWeak::strong_count` (src/sync/erased_arc.rs). -/
def TypeErasedWeak.strongCount (w : TypeErasedWeak) (h : Heap) : Nat × Heap :=
  w.vtable.strong_count_weak h w.ptr

/-- `TypeErasedWeak::weak_count` (src/sync/erased_arc.rs). -/
def TypeErasedWeak.weakCount (w : TypeErasedWeak) (h : Heap) : Nat × Heap :=
  w.vtable.weak_count_weak h w.ptr

end Sync

namespace Prc

/-- `RcErased::clone` (src/prc/erased_rc.rs): `Rc::increment_strong_count`. -/
def RcErased.clone (h : Heap) (p : TypeErasedPtr) : Heap :=
  hmod h p.block fun cb => { cb with strong := cb.strong + 1 }

/-- `RcErased::drop` (src/prc/erased_rc.rs): rebuild the `Rc` with
`Rc::from_raw` and drop it. -/
def RcErased.drop (h : Heap) (p : TypeErasedPtr) : Heap :=
  hmod h p.block fun cb =>
    if cb.strong = 1 then { cb with strong := 0, dropped := cb.dropped + 1 }
    else { cb with strong := cb.strong - 1 }

/-- `RcErased::downgrade` (src/prc/erased_rc.rs): `Rc::downgrade` then
`Weak::into_raw`. -/
def RcErased.downgrade (h : Heap) (p : TypeErasedPtr) : TypeErasedPtr × Heap :=
  (⟨p.block, PtrKind.weak⟩, hmod h p.block fun cb => { cb with weaks := cb.weaks + 1 })

/-- `RcErased::strong_count` (src/prc/erased_rc.rs): `Rc::strong_count`. -/
def RcErased.strong_count (h : Heap) (p : TypeErasedPtr) : Nat × Heap :=
  ((h p.block).strong, h)

/-- `RcErased::weak_count` (src/prc/erased_rc.rs): `Rc::weak_count`. -/
def RcErased.weak_count (h : Heap) (p : TypeErasedPtr) : Nat × Heap :=
  ((h p.block).weaks, h)

/-- `RcErased::clone_weak` (src/prc/erased_rc.rs). -/
def RcErased.clone_weak (h : Heap) (p : TypeErasedPtr) : Heap :=
  hmod h p.block fun cb => { cb with weaks := cb.weaks + 1 }

/-- `RcErased::drop_weak` (src/prc/erased_rc.rs). -/
def RcErased.drop_weak (h : Heap) (p : TypeErasedPtr) : Heap :=
  hmod h p.block fun cb => { cb with weaks := cb.weaks - 1 }

/-- `RcErased::upgrade_weak` (src/prc/erased_rc.rs): `rc::Weak::upgrade`. -/
def RcErased.upgrade_weak (h : Heap) (p : TypeErasedPtr) :
    Option TypeErasedPtr × Heap :=
  if (h p.block).strong = 0 then (none, h)
  else (some ⟨p.block, PtrKind.strong⟩,
    hmod h p.block fun cb => { cb with strong := cb.strong + 1 })

/-- `RcErased::strong_count_weak` (src/prc/erased_rc.rs). -/
def RcErased.strong_count_weak (h : Heap) (p : TypeErasedPtr) : Nat × Heap :=
  ((h p.block).strong, h)

/-- `RcErased::weak_count_weak` (src/prc/erased_rc.rs): `rc::Weak::weak_count`
returns 0 by convention once the strong count has reached zero. -/
def RcErased.weak_count_weak (h : Heap) (p : TypeErasedPtr) : Nat × Heap :=
  (if (h p.block).strong = 0 then 0 else (h p.block).weaks, h)

/-- `RcErased::<T>::VTABLE` (src/prc/erased_rc.rs). -/
def RcErased.VTABLE (tid : Nat) : RcVTable :=
  { typeId := tid
    clone := RcErased.clone
    drop := RcErased.drop
    downgrade := RcErased.downgrade
    strong_count := RcErased.strong_count
    weak_count := RcErased.weak_count
    clone_weak := RcErased.clone_weak
    drop_weak := RcErased.drop_weak
    upgrade_weak := RcErased.upgrade_weak
    strong_count_weak := RcErased.strong_count_weak
    weak_count_weak := RcErased.weak_count_weak }

/-- `TypeErasedRc` (src/prc/erased_rc.rs): erased pointer plus static vtable
reference (the `PhantomData<*mut ()>` thread-confinement marker carries no
run-time state). -/
structure TypeErasedRc where
  ptr : TypeErasedPtr
  vtable : RcVTable

/-- `TypeErasedWeak` (src/prc/erased_rc.rs). -/
structure TypeErasedWeak where
  ptr : TypeErasedPtr
  vtable : RcVTable

/-- `TypeErasedRc::new` (src/prc/erased_rc.rs). -/
def TypeErasedRc.new (b : Nat) (tid : Nat) : TypeErasedRc :=
  ⟨⟨b, PtrKind.strong⟩, RcErased.VTABLE tid⟩

/-- `impl Clone for TypeErasedRc` (src/prc/erased_rc.rs). -/
def TypeErasedRc.cloneH (a : TypeErasedRc) (h : Heap) : TypeErasedRc × Heap :=
  (⟨a.ptr, a.vtable⟩, a.vtable.clone h a.ptr)

/-- `impl Drop for TypeErasedRc` (src/prc/erased_rc.rs). -/
def TypeErasedRc.dropH (a : TypeErasedRc) (h : Heap) : Heap :=
  a.vtable.drop h a.ptr

/-- `TypeErasedRc::downgrade` (src/prc/erased_rc.rs). -/
def TypeErasedRc.downgradeH (a : TypeErasedRc) (h : Heap) :
    TypeErasedWeak × Heap :=
  let r := a.vtable.downgrade h a.ptr
  (⟨r.1, a.vtable⟩, r.2)

/-- `TypeErasedRc::strong_count` (src/prc/erased_rc.rs). -/
def TypeErasedRc.strongCount (a : TypeErasedRc) (h : Heap) : Nat × Heap :=
  a.vtable.strong_count h a.ptr

/-- `TypeErasedRc::weak_count` (src/prc/erased_rc.rs). -/
def TypeErasedRc.weakCount (a : TypeErasedRc) (h : Heap) : Nat × Heap :=
  a.vtable.weak_count h a.ptr

/-- `TypeErasedWeak::upgrade` (src/prc/erased_rc.rs). -/
def TypeErasedWeak.upgradeH (w : TypeErasedWeak) (h : Heap) :
    Option TypeErasedRc × Heap :=
  match w.vtable.upgrade_weak h w.ptr with
  | (some p, h') => (some ⟨p, w.vtable⟩, h')
  | (none, h') => (none, h')

/-- `impl Clone for TypeErasedWeak` (src/prc/erased_rc.rs). -/
def TypeErasedWeak.cloneH (w : TypeErasedWeak) (h : Heap) :
    TypeErasedWeak × Heap :=
  (⟨w.ptr, w.vtable⟩, w.vtable.clone_weak h w.ptr)

/-- `impl Drop for TypeErasedWeak` (src/prc/erased_rc.rs). -/
def TypeErasedWeak.dropH (w : TypeErasedWeak) (h : Heap) : Heap :=
  w.vtable.drop_weak h w.ptr

/-- `TypeErasedWeak::strong_count` (src/prc/erased_rc.rs). -/
def TypeErasedWeak.strongCount (w : TypeErasedWeak) (h : Heap) : Nat × Heap :=
  w.vtable.strong_count_weak h w.ptr

/-- `TypeErasedWeak::weak_count` (src/prc/erased_rc.rs). -/
def TypeErasedWeak.weakCount (w : TypeErasedWeak) (h : Heap) : Nat × Heap :=
  w.vtable.weak_count_weak h w.ptr

end Prc

namespace Root

/-- `TypeErasedLifecycle` (src/erased_arc.rs): the root module's own table
shape — the ten lifecycle operations, without an `as_ptr` entry. -/
structure TypeErasedLifecycle where
  clone : Heap → TypeErasedPtr → Heap
  drop : Heap → TypeErasedPtr → Heap
  downgrade : Heap → TypeErasedPtr → TypeErasedPtr × Heap
  strong_count : Heap → TypeErasedPtr → Nat × Heap
  weak_count : Heap → TypeErasedPtr → Nat × Heap
  clone_weak : Heap → TypeErasedPtr → Heap
  drop_weak : Heap → TypeErasedPtr → Heap
  upgrade_weak : Heap → TypeErasedPtr → Option TypeErasedPtr × Heap
  strong_count_weak : Heap → TypeErasedPtr → Nat × Heap
  weak_count_weak : Heap → TypeErasedPtr → Nat × Heap

/-- `ArcErased::clone` (src/erased_arc.rs): `Arc::increment_strong_count`. -/
def ArcErased.clone (h : Heap) (p : TypeErasedPtr) : Heap :=
  hmod h p.block fun cb => { cb with strong := cb.strong + 1 }

/-- `ArcErased::drop` (src/erased_arc.rs): `Self::as_arc(ptr)` rebuilds the
`Arc` and lets the temporary drop — decrement, destructor at zero. -/
def ArcErased.drop (h : Heap) (p : TypeErasedPtr) : Heap :=
  hmod h p.block fun cb =>
    if cb.strong = 1 then { cb with strong := 0, dropped := cb.dropped + 1 }
    else { cb with strong := cb.strong - 1 }

/-- `ArcErased::downgrade` (src/erased_arc.rs): `Arc::downgrade`, `forget`
the rebuilt `Arc`, return `Weak::into_raw` of the fresh weak. -/
def ArcErased.downgrade (h : Heap) (p : TypeErasedPtr) : TypeErasedPtr × Heap :=
  (⟨p.block, PtrKind.weak⟩, hmod h p.block fun cb => { cb with weaks := cb.weaks + 1 })

/-- `ArcErased::strong_count` (src/erased_arc.rs): `from_raw`, read,
`forget` — a net pure read. -/
def ArcErased.strong_count (h : Heap) (p : TypeErasedPtr) : Nat × Heap :=
  ((h p.block).strong, h)

/-- `ArcErased::weak_count` (src/erased_arc.rs). -/
def ArcErased.weak_count (h : Heap) (p : TypeErasedPtr) : Nat × Heap :=
  ((h p.block).weaks, h)

/-- `ArcErased::clone_weak` (src/erased_arc.rs). -/
def ArcErased.clone_weak (h : Heap) (p : TypeErasedPtr) : Heap :=
  hmod h p.block fun cb => { cb with weaks := cb.weaks + 1 }

/-- `ArcErased::drop_weak` (src/erased_arc.rs). -/
def ArcErased.drop_weak (h : Heap) (p : TypeErasedPtr) : Heap :=
  hmod h p.block fun cb => { cb with weaks := cb.weaks - 1 }

/-- `ArcErased::upgrade_weak` (src/erased_arc.rs): `Weak::upgrade`, `forget`
the rebuilt weak, erase the upgraded `Arc` when present. -/
def ArcErased.upgrade_weak (h : Heap) (p : TypeErasedPtr) :
    Option TypeErasedPtr × Heap :=
  if (h p.block).strong = 0 then (none, h)
  else (some ⟨p.block, PtrKind.strong⟩,
    hmod h p.block fun cb => { cb with strong := cb.strong + 1 })

/-- `ArcErased::strong_count_weak` (src/erased_arc.rs). -/
def ArcErased.strong_count_weak (h : Heap) (p : TypeErasedPtr) : Nat × Heap :=
  ((h p.block).strong, h)

/-- `ArcErased::weak_count_weak` (src/erased_arc.rs): `Weak::weak_count`
returns 0 by convention once the strong count has reached zero. -/
def ArcErased.weak_count_weak (h : Heap) (p : TypeErasedPtr) : Nat × Heap :=
  (if (h p.block).strong = 0 then 0 else (h p.block).weaks, h)

/-- `ArcErased::<T>::LIFECYCLE` (src/erased_arc.rs). -/
def ArcErased.LIFECYCLE : TypeErasedLifecycle :=
  { clone := ArcErased.clone
    drop := ArcErased.drop
    downgrade := ArcErased.downgrade
    strong_count := ArcErased.strong_count
    weak_count := ArcErased.weak_count
    clone_weak := ArcErased.clone_weak
    drop_weak := ArcErased.drop_weak
    upgrade_weak := ArcErased.upgrade_weak
    strong_count_weak := ArcErased.strong_count_weak
    weak_count_weak := ArcErased.weak_count_weak }

/-- `TypeErasedArc` (src/erased_arc.rs): erased pointer plus static
lifecycle-table reference. -/
structure TypeErasedArc where
  ptr : TypeErasedPtr
  lifecycle : TypeErasedLifecycle

/-- `TypeErasedWeak` (src/erased_arc.rs). -/
structure TypeErasedWeak where
  ptr : TypeErasedPtr
  lifecycle : TypeErasedLifecycle

/-- `TypeErasedArc::new` (src/erased_arc.rs). -/
def TypeErasedArc.new (b : Nat) : TypeErasedArc :=
  ⟨⟨b, PtrKind.strong⟩, ArcErased.LIFECYCLE⟩

/-- `impl Clone for TypeErasedArc` (src/erased_arc.rs). -/
def TypeErasedArc.cloneH (a : TypeErasedArc) (h : Heap) : TypeErasedArc × Heap :=
  (⟨a.ptr, a.lifecycle⟩, a.lifecycle.clone h a.ptr)

/-- `impl Drop for TypeErasedArc` (src/erased_arc.rs). -/
def TypeErasedArc.dropH (a : TypeErasedArc) (h : Heap) : Heap :=
  a.lifecycle.drop h a.ptr

/-- `TypeErasedArc::downgrade` (src/erased_arc.rs). -/
def TypeErasedArc.downgradeH (a : TypeErasedArc) (h : Heap) :
    TypeErasedWeak × Heap :=
  let r := a.lifecycle.downgrade h a.ptr
  (⟨r.1, a.lifecycle⟩, r.2)

/-- `TypeErasedArc::strong_count` (src/erased_arc.rs). -/
def TypeErasedArc.strongCount (a : TypeErasedArc) (h : Heap) : Nat × Heap :=
  a.lifecycle.strong_count h a.ptr

/-- `TypeErasedArc::weak_count` (src/erased_arc.rs). -/
def TypeErasedArc.weakCount (a : TypeErasedArc) (h : Heap) : Nat × Heap :=
  a.lifecycle.weak_count h a.ptr

/-- `TypeErasedWeak::upgrade` (src/erased_arc.rs). -/
def TypeErasedWeak.upgradeH (w : TypeErasedWeak) (h : Heap) :
    Option TypeErasedArc × Heap :=
  match w.lifecycle.upgrade_weak h w.ptr with
  | (some p, h') => (some ⟨p, w.lifecycle⟩, h')
  | (none, h') => (none, h')

/-- `impl Clone for TypeErasedWeak` (src/erased_arc.rs). -/
def TypeErasedWeak.cloneH (w : TypeErasedWeak) (h : Heap) :
    TypeErasedWeak × Heap :=
  (⟨w.ptr, w.lifecycle⟩, w.lifecycle.clone_weak h w.ptr)

/-- `impl Drop for TypeErasedWeak` (src/erased_arc.rs). -/
def TypeErasedWeak.dropH (w : TypeErasedWeak) (h : Heap) : Heap :=
  w.lifecycle.drop_weak h w.ptr

/-- `TypeErasedWeak::strong_count` (src/erased_arc.rs). -/
def TypeErasedWeak.strongCount (w : TypeErasedWeak) (h : Heap) : Nat × Heap :=
  w.lifecycle.strong_count_weak h w.ptr

/-- `TypeErasedWeak::weak_count` (src/erased_arc.rs). -/
def TypeErasedWeak.weakCount (w : TypeErasedWeak) (h : Heap) : Nat × Heap :=
  w.lifecycle.weak_count_weak h w.ptr

end Root

/-- Iterate a heap transformer `k` times: `k` successive clone or drop calls
on handles sharing one origin are `k` applications of the same dispatch. -/
def iterate (f : Heap → Heap) : Nat → Heap → Heap
  | 0, h => h
  | n + 1, h => iterate f n (f h)

/-- Modelled from the spec: the Projected Handle `Parc` — the projection
layer itself (`src/lib.rs` / `src/parc.rs`) is not among the sources, only
its integration tests are.  Per §2/§4.3 it composes a Strong Handle (the
owner, an atomic-variant `TypeErasedArc`) with an independently stored view;
`γ` is whatever representation the view requires (a fat slice address, or
directly the dereferenced view value when only value-level behaviour is
observed). -/
structure Parc (γ : Type) where
  owner : Sync.TypeErasedArc
  view : γ

/-- Modelled from the spec (§4.4): the Projected Weak Handle — a weak owner
plus the view representation cached verbatim at downgrade time. -/
structure ParcWeak (γ : Type) where
  owner : Sync.TypeErasedWeak
  view : γ

/-- Modelled from the spec (§4.4): `downgrade(projected)` downgrades the
owner and caches the view unchanged. -/
def Parc.downgradeP (p : Parc γ) (h : Heap) : ParcWeak γ × Heap :=
  let r := p.owner.downgradeH h
  (⟨r.1, p.view⟩, r.2)

/-- Modelled from the spec (§4.4): `upgrade(weak_projected)` attempts
`upgrade` on the weak owner; on success it pairs the freshly strengthened
owner with the unchanged cached view, on failure it returns nothing and the
cached view is never consulted. -/
def ParcWeak.upgradeP (w : ParcWeak γ) (h : Heap) : Option (Parc γ) × Heap :=
  match w.owner.upgradeH h with
  | (some a, h') => (some ⟨a, w.view⟩, h')
  | (none, h') => (none, h')

/-- A fat slice view representation: the block whose payload it points into,
the element offset and the separately stored length (spec §4.3, §9). -/
structure SliceView where
  block : Nat
  off : Nat
  len : Nat
deriving DecidableEq, Repr

/-- Dereference a cached slice view against the current heap: the addressed
cells of the owning allocation's payload. -/
def derefSlice (h : Heap) (v : SliceView) : List Nat :=
  (((h v.block).payload).drop v.off).take v.len

/-- Modelled from the spec (§4.3): value-level comparison behaviour of a
payload type, with possibly effectful `eq`/`ne` embedded state-passing —
`σ` is the state the payload's comparison may mutate (`RefCell` contents in
the `partial_eq` integration test). -/
structure PEqImpl (β σ : Type) where
  eq : β → β → σ → Bool × σ
  ne : β → β → σ → Bool × σ

/-- The default `ne` a payload gets when it only writes `eq`: one call to
`eq`, negated. -/
def PEqImpl.defaultNe (eqf : β → β → σ → Bool × σ) : β → β → σ → Bool × σ :=
  fun a b s =>
    let r := eqf a b s
    (!r.1, r.2)

/-- Modelled from the spec (§4.3): equality on a Projected Handle is defined
purely in terms of the referenced view value, never the owner, and addresses
each operand's view exactly once per comparison: one call of the payload's
`eq` on the two dereferenced views. -/
def Parc.eqOp (impl : PEqImpl β σ) (x y : Parc β) (s : σ) : Bool × σ :=
  impl.eq x.view y.view s

/-- Modelled from the spec (§4.3): the mirrored `ne` comparison — one call
of the payload's `ne` on the two dereferenced views. -/
def Parc.neOp (impl : PEqImpl β σ) (x y : Parc β) (s : σ) : Bool × σ :=
  impl.ne x.view y.view s

/-- The `TestPEq` payload of the `partial_eq` integration test
(src/tests/parc.rs): its `eq` bumps `self`'s cell and `other`'s cell by one
each and answers `true`.  The test compares a handle against itself, so both
operands share one cell — modelled as the `Nat` state, bumped twice. -/
def testPEqStep : Unit → Unit → Nat → Bool × Nat :=
  fun _ _ n => (true, n + 1 + 1)

/-- `TestPEq`'s comparison table: the hand-written `eq` and the default
derived `ne` (the test does not override `ne`). -/
def testPEq : PEqImpl Unit Nat :=
  { eq := testPEqStep, ne := PEqImpl.defaultNe testPEqStep }

/-- The `f32` payload of the `float_nan_ne` integration test
(src/tests/parc.rs), reduced to what IEEE-754 comparison decides: `NAN`
compares unequal to everything, itself included; finite values compare by
value. -/
inductive F32 where
  | nan
  | finite (v : Int)
deriving DecidableEq, Repr

/-- IEEE-754 `f32` equality on the modelled values: any comparison touching
`NAN` is `false`. -/
def F32.beqF : F32 → F32 → Bool
  | F32.finite a, F32.finite b => a == b
  | _, _ => false

/-- `f32`'s primitive comparison table: `ne` is the negation of `eq`. -/
def f32PEq : PEqImpl F32 Unit :=
  { eq := fun a b s => (F32.beqF a b, s)
    ne := fun a b s => (!F32.beqF a b, s) }

/-- The C1 scenario on the atomic variant: erase an `Arc` addressing block
`b` whose strong count is 1 (type table `tid`), clone the resulting
`TypeErasedArc` `N` times, then run `k` of the `N + 1` drops. -/
def syncCloneDropRun (b tid N k : Nat) (h : Heap) : Heap :=
  iterate ((Sync.TypeErasedArc.new b tid).dropH) k
    (iterate (fun hh => ((Sync.TypeErasedArc.new b tid).cloneH hh).2) N h)

/-- The C1 scenario on the non-atomic variant (`TypeErasedRc`). -/
def prcCloneDropRun (b tid N k : Nat) (h : Heap) : Heap :=
  iterate ((Prc.TypeErasedRc.new b tid).dropH) k
    (iterate (fun hh => ((Prc.TypeErasedRc.new b tid).cloneH hh).2) N h)

/-- The C1 scenario on the root-module lifecycle-table variant. -/
def rootCloneDropRun (b N k : Nat) (h : Heap) : Heap :=
  iterate ((Root.TypeErasedArc.new b).dropH) k
    (iterate (fun hh => ((Root.TypeErasedArc.new b).cloneH hh).2) N h)

theorem hmod_same (h : Heap) (b : Nat) (f : ControlBlock → ControlBlock) :
    hmod h b f b = f (h b) := by
  simp [hmod]

theorem hmod_other (h : Heap) (b : Nat) (f : ControlBlock → ControlBlock)
    (b' : Nat) (hne : b' ≠ b) : hmod h b f b' = h b' := by
  simp [hmod, hne]

theorem clone_iter_block (p : TypeErasedPtr) :
    ∀ (k : Nat) (h : Heap),
    ((iterate (fun hh => Sync.ArcErased.clone hh p) k h) p.block).strong
        = (h p.block).strong + k ∧
    ((iterate (fun hh => Sync.ArcErased.clone hh p) k h) p.block).dropped
        = (h p.block).dropped := by
  intro k
  induction k with
  | zero => intro h; exact ⟨rfl, rfl⟩
  | succ n ih =>
      intro h
      obtain ⟨ih1, ih2⟩ := ih (Sync.ArcErased.clone h p)
      refine ⟨?_, ?_⟩
      · show ((iterate _ n (Sync.ArcErased.clone h p)) p.block).strong = _
        rw [ih1]
        simp [Sync.ArcErased.clone, hmod]
        omega
      · show ((iterate _ n (Sync.ArcErased.clone h p)) p.block).dropped = _
        rw [ih2]
        simp [Sync.ArcErased.clone, hmod]

theorem drop_iter_lt (p : TypeErasedPtr) :
    ∀ (k : Nat) (h : Heap), k < (h p.block).strong →
    ((iterate (fun hh => Sync.ArcErased.drop hh p) k h) p.block).strong
        = (h p.block).strong - k ∧
    ((iterate (fun hh => Sync.ArcErased.drop hh p) k h) p.block).dropped
        = (h p.block).dropped := by
  intro k
  induction k with
  | zero => intro h _; exact ⟨rfl, rfl⟩
  | succ n ih =>
      intro h hk
      have hstep1 : ((Sync.ArcErased.drop h p) p.block).strong
          = (h p.block).strong - 1 := by
        simp only [Sync.ArcErased.drop, hmod_same]
        split <;> simp
        all_goals omega
      have hstep2 : ((Sync.ArcErased.drop h p) p.block).dropped
          = (h p.block).dropped := by
        simp only [Sync.ArcErased.drop, hmod_same]
        split
        · simp
          omega
        · rfl
      obtain ⟨ih1, ih2⟩ := ih (Sync.ArcErased.drop h p) (by rw [hstep1]; omega)
      refine ⟨?_, ?_⟩
      · show ((iterate _ n (Sync.ArcErased.drop h p)) p.block).strong = _
        rw [ih1, hstep1]
        omega
      · show ((iterate _ n (Sync.ArcErased.drop h p)) p.block).dropped = _
        rw [ih2, hstep2]

theorem drop_iter_exact (p : TypeErasedPtr) :
    ∀ (s : Nat) (h : Heap), (h p.block).strong = s → 0 < s →
    ((iterate (fun hh => Sync.ArcErased.drop hh p) s h) p.block).strong = 0 ∧
    ((iterate (fun hh => Sync.ArcErased.drop hh p) s h) p.block).dropped
        = (h p.block).dropped + 1 := by
  intro s
  induction s with
  | zero => intro h _ h0; omega
  | succ t ih =>
      intro h hs _
      by_cases ht : t = 0
      · subst ht
        have h1 : (h p.block).strong = 1 := hs
        show ((Sync.ArcErased.drop h p) p.block).strong = 0 ∧
            ((Sync.ArcErased.drop h p) p.block).dropped = (h p.block).dropped + 1
        simp only [Sync.ArcErased.drop, hmod_same, h1]
        exact ⟨rfl, rfl⟩
      · have hne1 : (h p.block).strong ≠ 1 := by omega
        have hstep1 : ((Sync.ArcErased.drop h p) p.block).strong = t := by
          simp only [Sync.ArcErased.drop, hmod_same]
          split <;> simp
          all_goals omega
        have hstep2 : ((Sync.ArcErased.drop h p) p.block).dropped
            = (h p.block).dropped := by
          simp only [Sync.ArcErased.drop, hmod_same]
          split
          · simp
            omega
          · rfl
        obtain ⟨ih1, ih2⟩ := ih (Sync.ArcErased.drop h p) hstep1 (by omega)
        refine ⟨?_, ?_⟩
        · show ((iterate _ t (Sync.ArcErased.drop h p)) p.block).strong = 0
          exact ih1
        · show ((iterate _ t (Sync.ArcErased.drop h p)) p.block).dropped
              = (h p.block).dropped + 1
          rw [ih2, hstep2]

/-- Claim C1: constructing a strong erased handle from a reference-counted
value whose strong count is 1, cloning it `N` times (each clone is the
identical handle value — same pointer, same table — so the `N + 1` drops are
the same dispatched call and their order is immaterial), and then dropping
all `N + 1` handles runs the payload's destructor exactly once, and only
after the last drop: after any `k ≤ N` drops the destructor has not run, and
after all `N + 1` drops it has run exactly once and the strong count is 0.
This holds for the atomic `Sync.TypeErasedArc`, the non-atomic
`Prc.TypeErasedRc`, and the root-module `Root.TypeErasedArc`. -/
theorem C1_destructor_exactly_once_after_last_drop
    (b tid N : Nat) (h : Heap)
    (hs : (h b).strong = 1) (hd : (h b).dropped = 0) :
    ((∀ hh : Heap, ((Sync.TypeErasedArc.new b tid).cloneH hh).1
        = Sync.TypeErasedArc.new b tid) ∧
     (∀ k, k ≤ N → ((syncCloneDropRun b tid N k h) b).dropped = 0) ∧
     ((syncCloneDropRun b tid N (N + 1) h) b).dropped = 1 ∧
     ((syncCloneDropRun b tid N (N + 1) h) b).strong = 0) ∧
    ((∀ hh : Heap, ((Prc.TypeErasedRc.new b tid).cloneH hh).1
        = Prc.TypeErasedRc.new b tid) ∧
     (∀ k, k ≤ N → ((prcCloneDropRun b tid N k h) b).dropped = 0) ∧
     ((prcCloneDropRun b tid N (N + 1) h) b).dropped = 1 ∧
     ((prcCloneDropRun b tid N (N + 1) h) b).strong = 0) ∧
    ((∀ hh : Heap, ((Root.TypeErasedArc.new b).cloneH hh).1
        = Root.TypeErasedArc.new b) ∧
     (∀ k, k ≤ N → ((rootCloneDropRun b N k h) b).dropped = 0) ∧
     ((rootCloneDropRun b N (N + 1) h) b).dropped = 1 ∧
     ((rootCloneDropRun b N (N + 1) h) b).strong = 0) := by
  have hcS : ((iterate (fun hh => Sync.ArcErased.clone hh ⟨b, PtrKind.strong⟩) N h) b).strong
      = (h b).strong + N := (clone_iter_block ⟨b, PtrKind.strong⟩ N h).1
  have hcD : ((iterate (fun hh => Sync.ArcErased.clone hh ⟨b, PtrKind.strong⟩) N h) b).dropped
      = (h b).dropped := (clone_iter_block ⟨b, PtrKind.strong⟩ N h).2
  have key₁ : ∀ k, k ≤ N → ((syncCloneDropRun b tid N k h) b).dropped = 0 := by
    intro k hk
    have hlt : k < ((iterate (fun hh => Sync.ArcErased.clone hh ⟨b, PtrKind.strong⟩) N h) b).strong := by
      rw [hcS, hs]; omega
    have hres : ((iterate (fun hh => Sync.ArcErased.drop hh ⟨b, PtrKind.strong⟩) k
        (iterate (fun hh => Sync.ArcErased.clone hh ⟨b, PtrKind.strong⟩) N h)) b).dropped
        = ((iterate (fun hh => Sync.ArcErased.clone hh ⟨b, PtrKind.strong⟩) N h) b).dropped :=
      (drop_iter_lt ⟨b, PtrKind.strong⟩ k _ hlt).2
    exact hres.trans (hcD.trans hd)
  have hstrongN : ((iterate (fun hh => Sync.ArcErased.clone hh ⟨b, PtrKind.strong⟩) N h) b).strong
      = N + 1 := by
    rw [hcS, hs]; omega
  have hexact := drop_iter_exact ⟨b, PtrKind.strong⟩ (N + 1)
    (iterate (fun hh => Sync.ArcErased.clone hh ⟨b, PtrKind.strong⟩) N h) hstrongN (by omega)
  have key₂ : ((syncCloneDropRun b tid N (N + 1) h) b).dropped = 1 := by
    have hres2 := hexact.2
    rw [hcD, hd] at hres2
    exact hres2
  have key₃ : ((syncCloneDropRun b tid N (N + 1) h) b).strong = 0 := hexact.1
  exact ⟨⟨fun _ => rfl, key₁, key₂, key₃⟩,
    ⟨fun _ => rfl, key₁, key₂, key₃⟩,
    ⟨fun _ => rfl, key₁, key₂, key₃⟩⟩

/-- Witness for C1 at the concrete scenario `N = 2` on a fresh allocation:
after 2 of the 3 drops the destructor has not run; after the third it has
run exactly once, on all three variants. -/
theorem C1_witness :
    ((syncCloneDropRun 0 5 2 2 (fun _ => ⟨1, 0, 0, []⟩)) 0).dropped = 0 ∧
    ((syncCloneDropRun 0 5 2 3 (fun _ => ⟨1, 0, 0, []⟩)) 0).dropped = 1 ∧
    ((prcCloneDropRun 0 5 2 3 (fun _ => ⟨1, 0, 0, []⟩)) 0).dropped = 1 ∧
    ((rootCloneDropRun 0 2 3 (fun _ => ⟨1, 0, 0, []⟩)) 0).strong = 0 := by
  have hthm := C1_destructor_exactly_once_after_last_drop 0 5 2
    (fun _ => ⟨1, 0, 0, []⟩) rfl rfl
  exact ⟨hthm.1.2.1 2 (by omega), hthm.1.2.2.1, hthm.2.1.2.2.1, hthm.2.2.2.2.2⟩

theorem sync_upgradeH_eq (p : TypeErasedPtr) (tid : Nat) (h : Heap) :
    Sync.TypeErasedWeak.upgradeH ⟨p, Sync.ArcErased.VTABLE tid⟩ h
      = if (h p.block).strong = 0 then (none, h)
        else (some ⟨⟨p.block, PtrKind.strong⟩, Sync.ArcErased.VTABLE tid⟩,
          hmod h p.block fun cb => { cb with strong := cb.strong + 1 }) := by
  by_cases h0 : (h p.block).strong = 0 <;>
    simp [Sync.TypeErasedWeak.upgradeH, Sync.ArcErased.VTABLE,
      Sync.ArcErased.upgrade_weak, h0]

theorem prc_upgradeH_eq (p : TypeErasedPtr) (tid : Nat) (h : Heap) :
    Prc.TypeErasedWeak.upgradeH ⟨p, Prc.RcErased.VTABLE tid⟩ h
      = if (h p.block).strong = 0 then (none, h)
        else (some ⟨⟨p.block, PtrKind.strong⟩, Prc.RcErased.VTABLE tid⟩,
          hmod h p.block fun cb => { cb with strong := cb.strong + 1 }) := by
  by_cases h0 : (h p.block).strong = 0 <;>
    simp [Prc.TypeErasedWeak.upgradeH, Prc.RcErased.VTABLE,
      Prc.RcErased.upgrade_weak, h0]

/-- Claim C2: `upgrade` on a weak erased handle returns a new strong handle
if and only if the owner's strong count is nonzero at the instant of the
call; when the strong count has already reached zero it returns `none`, does
not resurrect the payload and leaves every reachable part of the state
exactly as it was, on both the atomic and the non-atomic variant. -/
theorem C2_upgrade_iff_strong_nonzero (p : TypeErasedPtr) (tid : Nat) (h : Heap) :
    (((∃ a h', Sync.TypeErasedWeak.upgradeH ⟨p, Sync.ArcErased.VTABLE tid⟩ h
          = (some a, h')) ↔ (h p.block).strong ≠ 0) ∧
     ((h p.block).strong = 0 →
        Sync.TypeErasedWeak.upgradeH ⟨p, Sync.ArcErased.VTABLE tid⟩ h = (none, h))) ∧
    (((∃ a h', Prc.TypeErasedWeak.upgradeH ⟨p, Prc.RcErased.VTABLE tid⟩ h
          = (some a, h')) ↔ (h p.block).strong ≠ 0) ∧
     ((h p.block).strong = 0 →
        Prc.TypeErasedWeak.upgradeH ⟨p, Prc.RcErased.VTABLE tid⟩ h = (none, h))) := by
  refine ⟨⟨?_, ?_⟩, ⟨?_, ?_⟩⟩
  · rw [sync_upgradeH_eq]
    constructor
    · rintro ⟨a, h', heq⟩ h0
      rw [if_pos h0] at heq
      simp at heq
    · intro h0
      rw [if_neg h0]
      exact ⟨_, _, rfl⟩
  · intro h0
    rw [sync_upgradeH_eq, if_pos h0]
  · rw [prc_upgradeH_eq]
    constructor
    · rintro ⟨a, h', heq⟩ h0
      rw [if_pos h0] at heq
      simp at heq
    · intro h0
      rw [if_neg h0]
      exact ⟨_, _, rfl⟩
  · intro h0
    rw [prc_upgradeH_eq, if_pos h0]

/-- Witness for C2: on a control block whose strong count has reached zero
(three weak handles remain) upgrade fails and returns the state untouched;
on a live block it succeeds. -/
theorem C2_witness :
    Sync.TypeErasedWeak.upgradeH ⟨⟨0, PtrKind.weak⟩, Sync.ArcErased.VTABLE 4⟩
        (fun _ => ⟨0, 3, 1, [7]⟩)
      = (none, fun _ => ⟨0, 3, 1, [7]⟩) ∧
    (∃ a h', Prc.TypeErasedWeak.upgradeH ⟨⟨0, PtrKind.weak⟩, Prc.RcErased.VTABLE 4⟩
        (fun _ => ⟨2, 1, 0, [7]⟩) = (some a, h')) := by
  have t1 := C2_upgrade_iff_strong_nonzero ⟨0, PtrKind.weak⟩ 4 (fun _ => ⟨0, 3, 1, [7]⟩)
  have t2 := C2_upgrade_iff_strong_nonzero ⟨0, PtrKind.weak⟩ 4 (fun _ => ⟨2, 1, 0, [7]⟩)
  exact ⟨t1.1.2 rfl, t2.2.1.mpr (by decide)⟩

/-- Claim C3: `weak_count` read through a weak erased handle returns 0 once
the strong count has reached 0, regardless of how many weak handles still
exist — the convention value, not the allocator's internal dormant weak
counter — on all three handle variants.  (A strong handle itself always
keeps its strong count at least 1, so for strong handles the premise is
unreachable while the handle exists.) -/
theorem C3_weak_count_reads_zero_when_strong_zero
    (p : TypeErasedPtr) (tid : Nat) (h : Heap)
    (h0 : (h p.block).strong = 0) :
    (Sync.TypeErasedWeak.weakCount ⟨p, Sync.ArcErased.VTABLE tid⟩ h).1 = 0 ∧
    (Prc.TypeErasedWeak.weakCount ⟨p, Prc.RcErased.VTABLE tid⟩ h).1 = 0 ∧
    (Root.TypeErasedWeak.weakCount ⟨p, Root.ArcErased.LIFECYCLE⟩ h).1 = 0 := by
  refine ⟨?_, ?_, ?_⟩
  · simp [Sync.TypeErasedWeak.weakCount, Sync.ArcErased.VTABLE,
      Sync.ArcErased.weak_count_weak, h0]
  · simp [Prc.TypeErasedWeak.weakCount, Prc.RcErased.VTABLE,
      Prc.RcErased.weak_count_weak, h0]
  · simp [Root.TypeErasedWeak.weakCount, Root.ArcErased.LIFECYCLE,
      Root.ArcErased.weak_count_weak, h0]

/-- Witness for C3: a dead control block with five surviving weak handles
still reads a weak count of 0 on all three variants. -/
theorem C3_witness :
    (Sync.TypeErasedWeak.weakCount ⟨⟨0, PtrKind.weak⟩, Sync.ArcErased.VTABLE 3⟩
        (fun _ => ⟨0, 5, 1, []⟩)).1 = 0 ∧
    (Prc.TypeErasedWeak.weakCount ⟨⟨0, PtrKind.weak⟩, Prc.RcErased.VTABLE 3⟩
        (fun _ => ⟨0, 5, 1, []⟩)).1 = 0 ∧
    (Root.TypeErasedWeak.weakCount ⟨⟨0, PtrKind.weak⟩, Root.ArcErased.LIFECYCLE⟩
        (fun _ => ⟨0, 5, 1, []⟩)).1 = 0 :=
  C3_weak_count_reads_zero_when_strong_zero ⟨0, PtrKind.weak⟩ 3
    (fun _ => ⟨0, 5, 1, []⟩) rfl

/-- Claim C5: `downgrade` on a strong erased handle increments the weak count
by one, leaves the strong count (and the destructor state, the payload, and
every other block) unchanged, always succeeds, and returns a weak handle
addressing the same control block — tagged for weak interpretation — paired
with the same lifecycle table, on all three handle variants. -/
theorem C5_downgrade_increments_weak_only
    (p : TypeErasedPtr) (tid : Nat) (h : Heap) :
    ((Sync.TypeErasedArc.downgradeH ⟨p, Sync.ArcErased.VTABLE tid⟩ h).1.ptr.block = p.block ∧
     (Sync.TypeErasedArc.downgradeH ⟨p, Sync.ArcErased.VTABLE tid⟩ h).1.ptr.kind = PtrKind.weak ∧
     (Sync.TypeErasedArc.downgradeH ⟨p, Sync.ArcErased.VTABLE tid⟩ h).1.vtable
        = Sync.ArcErased.VTABLE tid ∧
     ((Sync.TypeErasedArc.downgradeH ⟨p, Sync.ArcErased.VTABLE tid⟩ h).2 p.block).weaks
        = (h p.block).weaks + 1 ∧
     ((Sync.TypeErasedArc.downgradeH ⟨p, Sync.ArcErased.VTABLE tid⟩ h).2 p.block).strong
        = (h p.block).strong ∧
     ((Sync.TypeErasedArc.downgradeH ⟨p, Sync.ArcErased.VTABLE tid⟩ h).2 p.block).dropped
        = (h p.block).dropped ∧
     ((Sync.TypeErasedArc.downgradeH ⟨p, Sync.ArcErased.VTABLE tid⟩ h).2 p.block).payload
        = (h p.block).payload ∧
     (∀ b, b ≠ p.block → (Sync.TypeErasedArc.downgradeH ⟨p, Sync.ArcErased.VTABLE tid⟩ h).2 b = h b)) ∧
    ((Prc.TypeErasedRc.downgradeH ⟨p, Prc.RcErased.VTABLE tid⟩ h).1.ptr.block = p.block ∧
     (Prc.TypeErasedRc.downgradeH ⟨p, Prc.RcErased.VTABLE tid⟩ h).1.ptr.kind = PtrKind.weak ∧
     (Prc.TypeErasedRc.downgradeH ⟨p, Prc.RcErased.VTABLE tid⟩ h).1.vtable
        = Prc.RcErased.VTABLE tid ∧
     ((Prc.TypeErasedRc.downgradeH ⟨p, Prc.RcErased.VTABLE tid⟩ h).2 p.block).weaks
        = (h p.block).weaks + 1 ∧
     ((Prc.TypeErasedRc.downgradeH ⟨p, Prc.RcErased.VTABLE tid⟩ h).2 p.block).strong
        = (h p.block).strong ∧
     (∀ b, b ≠ p.block → (Prc.TypeErasedRc.downgradeH ⟨p, Prc.RcErased.VTABLE tid⟩ h).2 b = h b)) ∧
    ((Root.TypeErasedArc.downgradeH ⟨p, Root.ArcErased.LIFECYCLE⟩ h).1.ptr.block = p.block ∧
     (Root.TypeErasedArc.downgradeH ⟨p, Root.ArcErased.LIFECYCLE⟩ h).1.ptr.kind = PtrKind.weak ∧
     (Root.TypeErasedArc.downgradeH ⟨p, Root.ArcErased.LIFECYCLE⟩ h).1.lifecycle
        = Root.ArcErased.LIFECYCLE ∧
     ((Root.TypeErasedArc.downgradeH ⟨p, Root.ArcErased.LIFECYCLE⟩ h).2 p.block).weaks
        = (h p.block).weaks + 1 ∧
     ((Root.TypeErasedArc.downgradeH ⟨p, Root.ArcErased.LIFECYCLE⟩ h).2 p.block).strong
        = (h p.block).strong ∧
     (∀ b, b ≠ p.block → (Root.TypeErasedArc.downgradeH ⟨p, Root.ArcErased.LIFECYCLE⟩ h).2 b = h b)) := by
  refine ⟨⟨rfl, rfl, rfl, ?_, ?_, ?_, ?_, ?_⟩,
          ⟨rfl, rfl, rfl, ?_, ?_, ?_⟩,
          ⟨rfl, rfl, rfl, ?_, ?_, ?_⟩⟩ <;>
    first
      | (show ((hmod h p.block fun cb => { cb with weaks := cb.weaks + 1 }) p.block).weaks
            = (h p.block).weaks + 1
         rw [hmod_same])
      | (show ((hmod h p.block fun cb => { cb with weaks := cb.weaks + 1 }) p.block).strong
            = (h p.block).strong
         rw [hmod_same])
      | (show ((hmod h p.block fun cb => { cb with weaks := cb.weaks + 1 }) p.block).dropped
            = (h p.block).dropped
         rw [hmod_same])
      | (show ((hmod h p.block fun cb => { cb with weaks := cb.weaks + 1 }) p.block).payload
            = (h p.block).payload
         rw [hmod_same])
      | (intro b hb
         show (hmod h p.block fun cb => { cb with weaks := cb.weaks + 1 }) b = h b
         exact hmod_other h p.block _ b hb)

/-- Witness for C5 on a concrete live block: the weak count rises from 2 to
3, the strong count stays 4, and a foreign block is untouched. -/
theorem C5_witness :
    ((Sync.TypeErasedArc.downgradeH ⟨⟨0, PtrKind.strong⟩, Sync.ArcErased.VTABLE 9⟩
        (fun _ => ⟨4, 2, 0, [1]⟩)).2 0).weaks = 3 ∧
    ((Sync.TypeErasedArc.downgradeH ⟨⟨0, PtrKind.strong⟩, Sync.ArcErased.VTABLE 9⟩
        (fun _ => ⟨4, 2, 0, [1]⟩)).2 0).strong = 4 ∧
    ((Root.TypeErasedArc.downgradeH ⟨⟨0, PtrKind.strong⟩, Root.ArcErased.LIFECYCLE⟩
        (fun _ => ⟨4, 2, 0, [1]⟩)).2 1) = ⟨4, 2, 0, [1]⟩ := by
  have t := C5_downgrade_increments_weak_only ⟨0, PtrKind.strong⟩ 9 (fun _ => ⟨4, 2, 0, [1]⟩)
  exact ⟨t.1.2.2.2.1, t.1.2.2.2.2.1, t.2.2.2.2.2.2.2 1 (by decide)⟩

/-- Claim C6: `clone` on a strong erased handle increments the strong count
of the addressed control block by exactly one with no observable side effect
beyond the count — weak count, destructor state, payload and all other
blocks are untouched — and returns a duplicate handle holding the same
erased pointer and the same table reference, on all three variants. -/
theorem C6_clone_increments_strong_only
    (p : TypeErasedPtr) (tid : Nat) (h : Heap) :
    ((Sync.TypeErasedArc.cloneH ⟨p, Sync.ArcErased.VTABLE tid⟩ h).1
        = ⟨p, Sync.ArcErased.VTABLE tid⟩ ∧
     ((Sync.TypeErasedArc.cloneH ⟨p, Sync.ArcErased.VTABLE tid⟩ h).2 p.block).strong
        = (h p.block).strong + 1 ∧
     ((Sync.TypeErasedArc.cloneH ⟨p, Sync.ArcErased.VTABLE tid⟩ h).2 p.block).weaks
        = (h p.block).weaks ∧
     ((Sync.TypeErasedArc.cloneH ⟨p, Sync.ArcErased.VTABLE tid⟩ h).2 p.block).dropped
        = (h p.block).dropped ∧
     ((Sync.TypeErasedArc.cloneH ⟨p, Sync.ArcErased.VTABLE tid⟩ h).2 p.block).payload
        = (h p.block).payload ∧
     (∀ b, b ≠ p.block → (Sync.TypeErasedArc.cloneH ⟨p, Sync.ArcErased.VTABLE tid⟩ h).2 b = h b)) ∧
    ((Prc.TypeErasedRc.cloneH ⟨p, Prc.RcErased.VTABLE tid⟩ h).1
        = ⟨p, Prc.RcErased.VTABLE tid⟩ ∧
     ((Prc.TypeErasedRc.cloneH ⟨p, Prc.RcErased.VTABLE tid⟩ h).2 p.block).strong
        = (h p.block).strong + 1 ∧
     ((Prc.TypeErasedRc.cloneH ⟨p, Prc.RcErased.VTABLE tid⟩ h).2 p.block).weaks
        = (h p.block).weaks ∧
     (∀ b, b ≠ p.block → (Prc.TypeErasedRc.cloneH ⟨p, Prc.RcErased.VTABLE tid⟩ h).2 b = h b)) ∧
    ((Root.TypeErasedArc.cloneH ⟨p, Root.ArcErased.LIFECYCLE⟩ h).1
        = ⟨p, Root.ArcErased.LIFECYCLE⟩ ∧
     ((Root.TypeErasedArc.cloneH ⟨p, Root.ArcErased.LIFECYCLE⟩ h).2 p.block).strong
        = (h p.block).strong + 1 ∧
     ((Root.TypeErasedArc.cloneH ⟨p, Root.ArcErased.LIFECYCLE⟩ h).2 p.block).weaks
        = (h p.block).weaks ∧
     (∀ b, b ≠ p.block → (Root.TypeErasedArc.cloneH ⟨p, Root.ArcErased.LIFECYCLE⟩ h).2 b = h b)) := by
  refine ⟨⟨rfl, ?_, ?_, ?_, ?_, ?_⟩, ⟨rfl, ?_, ?_, ?_⟩, ⟨rfl, ?_, ?_, ?_⟩⟩ <;>
    first
      | (show ((hmod h p.block fun cb => { cb with strong := cb.strong + 1 }) p.block).strong
            = (h p.block).strong + 1
         rw [hmod_same])
      | (show ((hmod h p.block fun cb => { cb with strong := cb.strong + 1 }) p.block).weaks
            = (h p.block).weaks
         rw [hmod_same])
      | (show ((hmod h p.block fun cb => { cb with strong := cb.strong + 1 }) p.block).dropped
            = (h p.block).dropped
         rw [hmod_same])
      | (show ((hmod h p.block fun cb => { cb with strong := cb.strong + 1 }) p.block).payload
            = (h p.block).payload
         rw [hmod_same])
      | (intro b hb
         show (hmod h p.block fun cb => { cb with strong := cb.strong + 1 }) b = h b
         exact hmod_other h p.block _ b hb)

/-- Witness for C6: cloning a handle over a live block takes the strong
count from 2 to 3, leaves the single weak handle and the payload in place,
and leaves a foreign block untouched. -/
theorem C6_witness :
    ((Sync.TypeErasedArc.cloneH ⟨⟨0, PtrKind.strong⟩, Sync.ArcErased.VTABLE 1⟩
        (fun _ => ⟨2, 1, 0, [9, 9]⟩)).2 0).strong = 3 ∧
    ((Sync.TypeErasedArc.cloneH ⟨⟨0, PtrKind.strong⟩, Sync.ArcErased.VTABLE 1⟩
        (fun _ => ⟨2, 1, 0, [9, 9]⟩)).2 0).weaks = 1 ∧
    ((Prc.TypeErasedRc.cloneH ⟨⟨0, PtrKind.strong⟩, Prc.RcErased.VTABLE 1⟩
        (fun _ => ⟨2, 1, 0, [9, 9]⟩)).2 2) = ⟨2, 1, 0, [9, 9]⟩ := by
  have t := C6_clone_increments_strong_only ⟨0, PtrKind.strong⟩ 1 (fun _ => ⟨2, 1, 0, [9, 9]⟩)
  exact ⟨t.1.2.1, t.1.2.2.1, t.2.1.2.2.2 2 (by decide)⟩

/-- Claim C8: `strong_count` and `weak_count` are pure reads on every erased
handle, strong or weak: they return the current counter values (the weak
read through a weak handle returning the convention value) and leave the
whole heap — counts and all other reachable state — exactly unchanged, on
all three handle variants. -/
theorem C8_count_reads_are_pure
    (p q : TypeErasedPtr) (tid : Nat) (h : Heap) :
    (Sync.TypeErasedArc.strongCount ⟨p, Sync.ArcErased.VTABLE tid⟩ h
        = ((h p.block).strong, h) ∧
     Sync.TypeErasedArc.weakCount ⟨p, Sync.ArcErased.VTABLE tid⟩ h
        = ((h p.block).weaks, h) ∧
     Sync.TypeErasedWeak.strongCount ⟨q, Sync.ArcErased.VTABLE tid⟩ h
        = ((h q.block).strong, h) ∧
     Sync.TypeErasedWeak.weakCount ⟨q, Sync.ArcErased.VTABLE tid⟩ h
        = (if (h q.block).strong = 0 then 0 else (h q.block).weaks, h)) ∧
    (Prc.TypeErasedRc.strongCount ⟨p, Prc.RcErased.VTABLE tid⟩ h
        = ((h p.block).strong, h) ∧
     Prc.TypeErasedRc.weakCount ⟨p, Prc.RcErased.VTABLE tid⟩ h
        = ((h p.block).weaks, h) ∧
     Prc.TypeErasedWeak.strongCount ⟨q, Prc.RcErased.VTABLE tid⟩ h
        = ((h q.block).strong, h) ∧
     Prc.TypeErasedWeak.weakCount ⟨q, Prc.RcErased.VTABLE tid⟩ h
        = (if (h q.block).strong = 0 then 0 else (h q.block).weaks, h)) ∧
    (Root.TypeErasedArc.strongCount ⟨p, Root.ArcErased.LIFECYCLE⟩ h
        = ((h p.block).strong, h) ∧
     Root.TypeErasedArc.weakCount ⟨p, Root.ArcErased.LIFECYCLE⟩ h
        = ((h p.block).weaks, h) ∧
     Root.TypeErasedWeak.strongCount ⟨q, Root.ArcErased.LIFECYCLE⟩ h
        = ((h q.block).strong, h) ∧
     Root.TypeErasedWeak.weakCount ⟨q, Root.ArcErased.LIFECYCLE⟩ h
        = (if (h q.block).strong = 0 then 0 else (h q.block).weaks, h)) :=
  ⟨⟨rfl, rfl, rfl, rfl⟩, ⟨rfl, rfl, rfl, rfl⟩, ⟨rfl, rfl, rfl, rfl⟩⟩

/-- Claim C9: every operation that produces a new erased handle from an
existing one — clone of a strong handle, downgrade of a strong handle, clone
of a weak handle, and successful upgrade of a weak handle — yields a handle
carrying the identical lifecycle-table reference as the handle it was
derived from, for arbitrary handles of the atomic, non-atomic and
root-module variants: the pointer/table pairing fixed at construction is
preserved by every derivation. -/
theorem C9_derived_handles_keep_table
    (a : Sync.TypeErasedArc) (w : Sync.TypeErasedWeak)
    (aR : Prc.TypeErasedRc) (wR : Prc.TypeErasedWeak)
    (aL : Root.TypeErasedArc) (wL : Root.TypeErasedWeak) (h : Heap) :
    ((a.cloneH h).1.vtable = a.vtable ∧
     (a.downgradeH h).1.vtable = a.vtable ∧
     (w.cloneH h).1.vtable = w.vtable ∧
     (∀ a' h', w.upgradeH h = (some a', h') → a'.vtable = w.vtable)) ∧
    ((aR.cloneH h).1.vtable = aR.vtable ∧
     (aR.downgradeH h).1.vtable = aR.vtable ∧
     (wR.cloneH h).1.vtable = wR.vtable ∧
     (∀ a' h', wR.upgradeH h = (some a', h') → a'.vtable = wR.vtable)) ∧
    ((aL.cloneH h).1.lifecycle = aL.lifecycle ∧
     (aL.downgradeH h).1.lifecycle = aL.lifecycle ∧
     (wL.cloneH h).1.lifecycle = wL.lifecycle ∧
     (∀ a' h', wL.upgradeH h = (some a', h') → a'.lifecycle = wL.lifecycle)) := by
  refine ⟨⟨rfl, rfl, rfl, ?_⟩, ⟨rfl, rfl, rfl, ?_⟩, ⟨rfl, rfl, rfl, ?_⟩⟩
  · intro a' h' heq
    unfold Sync.TypeErasedWeak.upgradeH at heq
    rcases hcase : w.vtable.upgrade_weak h w.ptr with ⟨o, h2⟩
    rw [hcase] at heq
    cases o with
    | none => simp at heq
    | some q =>
      simp only [Option.some.injEq, Prod.mk.injEq] at heq
      rw [← heq.1]
  · intro a' h' heq
    unfold Prc.TypeErasedWeak.upgradeH at heq
    rcases hcase : wR.vtable.upgrade_weak h wR.ptr with ⟨o, h2⟩
    rw [hcase] at heq
    cases o with
    | none => simp at heq
    | some q =>
      simp only [Option.some.injEq, Prod.mk.injEq] at heq
      rw [← heq.1]
  · intro a' h' heq
    unfold Root.TypeErasedWeak.upgradeH at heq
    rcases hcase : wL.lifecycle.upgrade_weak h wL.ptr with ⟨o, h2⟩
    rw [hcase] at heq
    cases o with
    | none => simp at heq
    | some q =>
      simp only [Option.some.injEq, Prod.mk.injEq] at heq
      rw [← heq.1]

/-- Witness for C9: a concrete successful upgrade on a live block hands back
a strong handle carrying the very same static table value. -/
theorem C9_witness :
    Sync.TypeErasedWeak.upgradeH ⟨⟨0, PtrKind.weak⟩, Sync.ArcErased.VTABLE 7⟩
        (fun _ => ⟨1, 1, 0, []⟩)
      = (some ⟨⟨0, PtrKind.strong⟩, Sync.ArcErased.VTABLE 7⟩,
         hmod (fun _ => ⟨1, 1, 0, []⟩) 0 fun cb => { cb with strong := cb.strong + 1 }) ∧
    (Sync.TypeErasedArc.mk ⟨0, PtrKind.strong⟩ (Sync.ArcErased.VTABLE 7)).vtable
      = (Sync.TypeErasedWeak.mk ⟨0, PtrKind.weak⟩ (Sync.ArcErased.VTABLE 7)).vtable := by
  refine ⟨rfl, ?_⟩
  exact (C9_derived_handles_keep_table
      ⟨⟨0, PtrKind.strong⟩, Sync.ArcErased.VTABLE 7⟩
      ⟨⟨0, PtrKind.weak⟩, Sync.ArcErased.VTABLE 7⟩
      ⟨⟨0, PtrKind.strong⟩, Prc.RcErased.VTABLE 7⟩
      ⟨⟨0, PtrKind.weak⟩, Prc.RcErased.VTABLE 7⟩
      ⟨⟨0, PtrKind.strong⟩, Root.ArcErased.LIFECYCLE⟩
      ⟨⟨0, PtrKind.weak⟩, Root.ArcErased.LIFECYCLE⟩
      (fun _ => ⟨1, 1, 0, []⟩)).1.2.2.2 _ _ rfl

theorem hmod_payload (h : Heap) (b : Nat) (f : ControlBlock → ControlBlock)
    (hf : ∀ cb, (f cb).payload = cb.payload) (b' : Nat) :
    ((hmod h b f) b').payload = (h b').payload := by
  unfold hmod
  by_cases hb : b' = b <;> simp [hb, hf]

theorem derefSlice_hmod (h : Heap) (b : Nat) (f : ControlBlock → ControlBlock)
    (hf : ∀ cb, (f cb).payload = cb.payload) (v : SliceView) :
    derefSlice (hmod h b f) v = derefSlice h v := by
  unfold derefSlice
  rw [hmod_payload h b f hf]

theorem parc_upgradeP_eq {γ : Type} (bq : Nat) (kq : PtrKind) (tid : Nat)
    (v : γ) (h : Heap) :
    ParcWeak.upgradeP ⟨⟨⟨bq, kq⟩, Sync.ArcErased.VTABLE tid⟩, v⟩ h
      = if (h bq).strong = 0 then (none, h)
        else (some ⟨⟨⟨bq, PtrKind.strong⟩, Sync.ArcErased.VTABLE tid⟩, v⟩,
          hmod h bq fun cb => { cb with strong := cb.strong + 1 }) := by
  by_cases h0 : (h bq).strong = 0 <;>
    simp [ParcWeak.upgradeP, Sync.TypeErasedWeak.upgradeH, Sync.ArcErased.VTABLE,
      Sync.ArcErased.upgrade_weak, h0]

/-- Claim C4: downgrading a projected handle and then upgrading the
resulting projected weak handle, while the owner is still alive, yields a
projected handle whose cached view representation is reused verbatim — so
it dereferences to the identical value as before the downgrade, the
allocation's payload being untouched by the count operations; if the
owner's strong count has reached zero in between, the upgrade returns
nothing and never consults the cached view. -/
theorem C4_projected_downgrade_then_upgrade
    (bq tid : Nat) (v : SliceView) (h : Heap)
    (hs : (h bq).strong ≠ 0) :
    (∃ (P' : Parc SliceView) (h2 : Heap),
       ParcWeak.upgradeP
           (Parc.downgradeP ⟨⟨⟨bq, PtrKind.strong⟩, Sync.ArcErased.VTABLE tid⟩, v⟩ h).1
           (Parc.downgradeP ⟨⟨⟨bq, PtrKind.strong⟩, Sync.ArcErased.VTABLE tid⟩, v⟩ h).2
         = (some P', h2) ∧
       P'.view = v ∧
       derefSlice h2 v = derefSlice h v ∧
       P'.owner.vtable = Sync.ArcErased.VTABLE tid) ∧
    (∀ h' : Heap, (h' bq).strong = 0 →
       ParcWeak.upgradeP
           (Parc.downgradeP ⟨⟨⟨bq, PtrKind.strong⟩, Sync.ArcErased.VTABLE tid⟩, v⟩ h).1 h'
         = (none, h')) := by
  refine ⟨?_, ?_⟩
  · show ∃ (P' : Parc SliceView) (h2 : Heap),
      ParcWeak.upgradeP (⟨⟨⟨bq, PtrKind.weak⟩, Sync.ArcErased.VTABLE tid⟩, v⟩ : ParcWeak SliceView)
          (hmod h bq fun cb => { cb with weaks := cb.weaks + 1 })
        = (some P', h2) ∧
      P'.view = v ∧
      derefSlice h2 v = derefSlice h v ∧
      P'.owner.vtable = Sync.ArcErased.VTABLE tid
    have hc : ((hmod h bq fun cb => { cb with weaks := cb.weaks + 1 }) bq).strong
        = (h bq).strong := by
      rw [hmod_same]
    have hup : ParcWeak.upgradeP
        (⟨⟨⟨bq, PtrKind.weak⟩, Sync.ArcErased.VTABLE tid⟩, v⟩ : ParcWeak SliceView)
        (hmod h bq fun cb => { cb with weaks := cb.weaks + 1 })
        = (some ⟨⟨⟨bq, PtrKind.strong⟩, Sync.ArcErased.VTABLE tid⟩, v⟩,
           hmod (hmod h bq fun cb => { cb with weaks := cb.weaks + 1 }) bq
             fun cb => { cb with strong := cb.strong + 1 }) := by
      rw [parc_upgradeP_eq, if_neg (by rw [hc]; exact hs)]
    refine ⟨_, _, hup, rfl, ?_, rfl⟩
    exact (derefSlice_hmod (hmod h bq fun cb => { cb with weaks := cb.weaks + 1 }) bq
        (fun cb => { cb with strong := cb.strong + 1 }) (fun _ => rfl) v).trans
      (derefSlice_hmod h bq (fun cb => { cb with weaks := cb.weaks + 1 }) (fun _ => rfl) v)
  · intro h' h0
    show ParcWeak.upgradeP
        (⟨⟨⟨bq, PtrKind.weak⟩, Sync.ArcErased.VTABLE tid⟩, v⟩ : ParcWeak SliceView) h'
      = (none, h')
    rw [parc_upgradeP_eq, if_pos h0]

/-- Witness for C4 at the spec's own scenario: payload `[3, 2, 1]` behind a
slice view; downgrade then upgrade succeeds with the view dereferencing to
`[3, 2, 1]` again, while against a heap whose owner is fully dropped the
upgrade returns nothing. -/
theorem C4_witness :
    derefSlice (fun _ => ⟨1, 0, 0, [3, 2, 1]⟩) ⟨0, 0, 3⟩ = [3, 2, 1] ∧
    (∃ (P' : Parc SliceView) (h2 : Heap),
       ParcWeak.upgradeP
           (Parc.downgradeP (⟨⟨⟨0, PtrKind.strong⟩, Sync.ArcErased.VTABLE 2⟩, ⟨0, 0, 3⟩⟩ : Parc SliceView)
              (fun _ => ⟨1, 0, 0, [3, 2, 1]⟩)).1
           (Parc.downgradeP (⟨⟨⟨0, PtrKind.strong⟩, Sync.ArcErased.VTABLE 2⟩, ⟨0, 0, 3⟩⟩ : Parc SliceView)
              (fun _ => ⟨1, 0, 0, [3, 2, 1]⟩)).2
         = (some P', h2) ∧
       P'.view = ⟨0, 0, 3⟩ ∧
       derefSlice h2 ⟨0, 0, 3⟩ = [3, 2, 1]) ∧
    ParcWeak.upgradeP
        (Parc.downgradeP (⟨⟨⟨0, PtrKind.strong⟩, Sync.ArcErased.VTABLE 2⟩, ⟨0, 0, 3⟩⟩ : Parc SliceView)
           (fun _ => ⟨1, 0, 0, [3, 2, 1]⟩)).1
        (fun _ => ⟨0, 1, 1, [3, 2, 1]⟩)
      = (none, fun _ => ⟨0, 1, 1, [3, 2, 1]⟩) := by
  have t := C4_projected_downgrade_then_upgrade 0 2 ⟨0, 0, 3⟩
    (fun _ => ⟨1, 0, 0, [3, 2, 1]⟩) (by decide)
  obtain ⟨P', h2, heq, hview, hder, _⟩ := t.1
  refine ⟨by decide, ?_, t.2 _ rfl⟩
  exact ⟨P', h2, heq, hview, hder.trans (by decide)⟩

/-- Claim C7: equality and inequality on a projected handle are defined
purely in terms of the referenced view value — the owner never enters the
comparison — and each comparison operation addresses each operand's view
exactly once: on the `TestPEq` payload of the integration test, whose
effectful `eq` bumps the shared cell once per operand, `x == x` answers
`true` taking the cell from 0 to 2 and `x != x` answers `false` taking it
from 2 to 4, exactly the counts the test asserts. -/
theorem C7_parc_comparison_view_only_once_per_operand :
    (∀ (β σ : Type) (impl : PEqImpl β σ) (o1 o2 : Sync.TypeErasedArc)
       (v1 v2 : β) (s : σ),
       Parc.eqOp impl ⟨o1, v1⟩ ⟨o2, v2⟩ s = impl.eq v1 v2 s ∧
       Parc.neOp impl ⟨o1, v1⟩ ⟨o2, v2⟩ s = impl.ne v1 v2 s) ∧
    (∀ o : Sync.TypeErasedArc,
       Parc.eqOp testPEq ⟨o, ()⟩ ⟨o, ()⟩ 0 = (true, 2) ∧
       Parc.neOp testPEq ⟨o, ()⟩ ⟨o, ()⟩ 2 = (false, 4)) :=
  ⟨fun _ _ _ _ _ _ _ _ => ⟨rfl, rfl⟩, fun _ => ⟨rfl, rfl⟩⟩

/-- Claim C10: equality on a projected handle delegates exactly to the
payload's own comparison with no pointer-identity or reflexivity shortcut:
for any owner, a handle over the modelled `f32::NAN` compares `x == x` to
`false` and `x != x` to `true` even though both operands are the same
handle over the same allocation. -/
theorem C10_parc_eq_no_reflexivity_shortcut :
    (∀ (o1 o2 : Sync.TypeErasedArc) (x y : F32) (s : Unit),
       Parc.eqOp f32PEq ⟨o1, x⟩ ⟨o2, y⟩ s = (F32.beqF x y, s) ∧
       Parc.neOp f32PEq ⟨o1, x⟩ ⟨o2, y⟩ s = (!F32.beqF x y, s)) ∧
    (∀ o : Sync.TypeErasedArc,
       Parc.eqOp f32PEq ⟨o, F32.nan⟩ ⟨o, F32.nan⟩ () = (false, ()) ∧
       Parc.neOp f32PEq ⟨o, F32.nan⟩ ⟨o, F32.nan⟩ () = (true, ())) :=
  ⟨fun _ _ _ _ _ => ⟨rfl, rfl⟩, fun _ => ⟨rfl, rfl⟩⟩
